import Mathlib

/-!
Verification of the Captain Cargo delivery-tracking core against its
design specification.

The Lean definitions below are a shallow embedding of the Python sources:

* `normalize_tracking_id`   — src/utils/normalization.py
* `DeliveryCache`           — src/services/cache.py
* `SanityClient` state      — src/services/sanity_client.py
* `ResponseBuilder`         — src/services/response_builder.py
* `process_webhook`         — src/server.py

Wall-clock instants (Python `time.time()`) are modelled as natural numbers
passed explicitly to every operation that reads the clock.  Python
exceptions are modelled with `Except`.  Python dicts that the cache keeps
in sync (`_cache`, `_timestamps`, `_ttls`) are modelled as a single
association list in dict insertion order, which is the iteration order
Python guarantees.
-/

namespace CaptainCargo

/-! ## Character-level facts used by the normalizer proofs -/

theorem char_toNat_ofNat_valid {n : Nat} (h : n.isValidChar) : (Char.ofNat n).toNat = n := by
  simp [Char.ofNat, h, Char.ofNatAux, Char.toNat, UInt32.toNat, BitVec.toNat_ofNatLt]

theorem char_isLower_iff (c : Char) : c.isLower = true ↔ 97 ≤ c.toNat ∧ c.toNat ≤ 122 := by
  simp [Char.isLower, Char.toNat, UInt32.le_def, BitVec.le_def, UInt32.toNat]

theorem char_isUpper_iff (c : Char) : c.isUpper = true ↔ 65 ≤ c.toNat ∧ c.toNat ≤ 90 := by
  simp [Char.isUpper, Char.toNat, UInt32.le_def, BitVec.le_def, UInt32.toNat]

theorem char_isDigit_iff (c : Char) : c.isDigit = true ↔ 48 ≤ c.toNat ∧ c.toNat ≤ 57 := by
  simp [Char.isDigit, Char.toNat, UInt32.le_def, BitVec.le_def, UInt32.toNat]

theorem char_isAlphanum_iff (c : Char) : c.isAlphanum = true ↔
    (65 ≤ c.toNat ∧ c.toNat ≤ 90) ∨ (97 ≤ c.toNat ∧ c.toNat ≤ 122) ∨
    (48 ≤ c.toNat ∧ c.toNat ≤ 57) := by
  simp [Char.isAlphanum, Char.isAlpha, char_isUpper_iff, char_isLower_iff, char_isDigit_iff]
  tauto

theorem char_toUpper_of_lower (c : Char) (h1 : 97 ≤ c.toNat) (h2 : c.toNat ≤ 122) :
    (Char.toUpper c).toNat = c.toNat - 32 := by
  have hv : (c.toNat - 32).isValidChar := by
    left
    omega
  simp only [Char.toUpper]
  rw [if_pos ⟨h1, h2⟩]
  exact char_toNat_ofNat_valid hv

theorem char_toUpper_of_not_lower (c : Char) (h : ¬ (97 ≤ c.toNat ∧ c.toNat ≤ 122)) :
    Char.toUpper c = c := by
  simp only [Char.toUpper]
  rw [if_neg h]

theorem char_isAlphanum_toUpper (c : Char) (h : c.isAlphanum = true) :
    (Char.toUpper c).isAlphanum = true := by
  rw [char_isAlphanum_iff] at h ⊢
  by_cases hl : 97 ≤ c.toNat ∧ c.toNat ≤ 122
  · rw [char_toUpper_of_lower c hl.1 hl.2]
    left
    omega
  · simp only [char_toUpper_of_not_lower c hl]
    exact h

theorem char_toUpper_toUpper (c : Char) : Char.toUpper (Char.toUpper c) = Char.toUpper c := by
  by_cases hl : 97 ≤ c.toNat ∧ c.toNat ≤ 122
  · have := char_toUpper_of_lower c hl.1 hl.2
    apply char_toUpper_of_not_lower
    omega
  · simp only [char_toUpper_of_not_lower c hl]

/-! ## Normalizer — src/utils/normalization.py

`normalize_tracking_id` strips every character outside `[A-Za-z0-9]`
(the regex class is ASCII-only, exactly `Char.isAlphanum`), uppercases
the remainder (`str.upper` on an ASCII-only string is `Char.toUpper`
applied characterwise), and enforces length 6–32.  `ValueError` is
modelled as `Except.error` carrying the message string. -/

def tidEmptyMsg : String := "Tracking ID cannot be empty"

def tooShortMsg (normalized : String) : String :=
  "Tracking ID too short after normalization: \x27" ++ normalized ++
    "\x27 (minimum 6 characters)"

def tooLongMsg (normalized : String) : String :=
  "Tracking ID too long after normalization: \x27" ++ normalized ++
    "\x27 (maximum 32 characters)"

def normalize_tracking_id (raw_id : String) : Except String String :=
  if raw_id = "" then .error tidEmptyMsg
  else
    let cleaned := raw_id.data.filter Char.isAlphanum
    let normalized := String.mk (cleaned.map Char.toUpper)
    if normalized.length < 6 then .error (tooShortMsg normalized)
    else if normalized.length > 32 then .error (tooLongMsg normalized)
    else .ok normalized

def validate_tracking_id (tracking_id : String) : Bool :=
  match normalize_tracking_id tracking_id with
  | .ok normalized => normalized = tracking_id
  | .error _ => false

/-- Canonical character list produced by normalization before the length check. -/
def canonChars (raw_id : String) : List Char :=
  (raw_id.data.filter Char.isAlphanum).map Char.toUpper

theorem normalize_eq (raw_id : String) :
    normalize_tracking_id raw_id =
      if raw_id = "" then .error tidEmptyMsg
      else if (canonChars raw_id).length < 6 then
        .error (tooShortMsg (String.mk (canonChars raw_id)))
      else if (canonChars raw_id).length > 32 then
        .error (tooLongMsg (String.mk (canonChars raw_id)))
      else .ok (String.mk (canonChars raw_id)) := rfl

theorem normalize_eq_ok_iff (raw_id out : String) :
    normalize_tracking_id raw_id = .ok out ↔
      raw_id ≠ "" ∧ 6 ≤ (canonChars raw_id).length ∧ (canonChars raw_id).length ≤ 32 ∧
        out = String.mk (canonChars raw_id) := by
  rw [normalize_eq]
  split_ifs with h0 h6 h32
  · simp [h0]
  · simp only [reduceCtorEq, false_iff]
    intro ⟨_, hge, _, _⟩
    omega
  · simp only [reduceCtorEq, false_iff]
    intro ⟨_, _, hle, _⟩
    omega
  · constructor
    · intro h
      refine ⟨h0, by omega, by omega, ?_⟩
      exact ((Except.ok.injEq _ _).mp h).symm
    · intro ⟨_, _, _, hout⟩
      rw [hout]

theorem normalize_isError_iff (raw_id : String) :
    (∃ m, normalize_tracking_id raw_id = .error m) ↔
      raw_id = "" ∨ (canonChars raw_id).length < 6 ∨ 32 < (canonChars raw_id).length := by
  rw [normalize_eq]
  split_ifs with h0 h6 h32
  · simp [h0]
  · exact ⟨fun _ => Or.inr (Or.inl h6), fun _ => ⟨_, rfl⟩⟩
  · exact ⟨fun _ => Or.inr (Or.inr (by omega)), fun _ => ⟨_, rfl⟩⟩
  · simp only [reduceCtorEq, exists_false, false_iff]
    push_neg
    exact ⟨h0, by omega, by omega⟩

theorem mem_canonChars_isAlphanum {raw_id : String} {c : Char}
    (h : c ∈ canonChars raw_id) : c.isAlphanum = true := by
  unfold canonChars at h
  obtain ⟨c', hc', rfl⟩ := List.mem_map.mp h
  exact char_isAlphanum_toUpper c' (List.of_mem_filter hc')

theorem mem_canonChars_toUpper {raw_id : String} {c : Char}
    (h : c ∈ canonChars raw_id) : Char.toUpper c = c := by
  unfold canonChars at h
  obtain ⟨c', _, rfl⟩ := List.mem_map.mp h
  exact char_toUpper_toUpper c'

theorem canonChars_mk_canonChars (raw_id : String) :
    canonChars (String.mk (canonChars raw_id)) = canonChars raw_id := by
  show ((canonChars raw_id).filter Char.isAlphanum).map Char.toUpper = canonChars raw_id
  rw [List.filter_eq_self.mpr fun c hc => mem_canonChars_isAlphanum hc]
  rw [show List.map Char.toUpper (canonChars raw_id) = List.map id (canonChars raw_id) from
    List.map_congr_left fun c hc => mem_canonChars_toUpper hc]
  exact List.map_id _

/-- C8: on success, `normalize_tracking_id` returns exactly the
uppercased alphanumeric residue of the input and its length lies in
[6, 32]; it fails precisely when the input is the empty string or the
residue is shorter than 6 ("too short" message) or longer than 32
("too long" message).  The embedding is a pure function, so the
no-side-effect part of the claim is inherent. -/
theorem claim_C8_normalize_spec (raw_id : String) :
    (∀ out, normalize_tracking_id raw_id = .ok out →
        out.data = canonChars raw_id ∧ 6 ≤ out.length ∧ out.length ≤ 32) ∧
    ((∃ m, normalize_tracking_id raw_id = .error m) ↔
        raw_id = "" ∨ (canonChars raw_id).length < 6 ∨ 32 < (canonChars raw_id).length) ∧
    (raw_id = "" → normalize_tracking_id raw_id = .error tidEmptyMsg) ∧
    (raw_id ≠ "" → (canonChars raw_id).length < 6 →
        normalize_tracking_id raw_id = .error (tooShortMsg (String.mk (canonChars raw_id)))) ∧
    (raw_id ≠ "" → 32 < (canonChars raw_id).length →
        normalize_tracking_id raw_id = .error (tooLongMsg (String.mk (canonChars raw_id)))) := by
  refine ⟨?_, normalize_isError_iff raw_id, ?_, ?_, ?_⟩
  · intro out hok
    obtain ⟨_, h6, h32, hout⟩ := (normalize_eq_ok_iff raw_id out).mp hok
    subst hout
    exact ⟨rfl, h6, h32⟩
  · intro h
    rw [normalize_eq, if_pos h]
  · intro hne hshort
    rw [normalize_eq, if_neg hne, if_pos hshort]
  · intro hne hlong
    rw [normalize_eq, if_neg hne, if_neg (by omega), if_pos hlong]

/-- Witness for C8 at the concrete input "trk-123456". -/
theorem claim_C8_normalize_spec_witness :
    ("TRK123456" : String).data = canonChars "trk-123456" ∧
      6 ≤ ("TRK123456" : String).length ∧ ("TRK123456" : String).length ≤ 32 :=
  (claim_C8_normalize_spec "trk-123456").1 "TRK123456" rfl

/-- C9: normalization is idempotent — whenever `normalize_tracking_id raw`
succeeds with `out`, normalizing `out` again succeeds and returns `out`
unchanged. -/
theorem claim_C9_normalize_idempotent (raw_id out : String)
    (h : normalize_tracking_id raw_id = .ok out) :
    normalize_tracking_id out = .ok out := by
  obtain ⟨_, h6, h32, hout⟩ := (normalize_eq_ok_iff raw_id out).mp h
  apply (normalize_eq_ok_iff out out).mpr
  have hcanon : canonChars out = canonChars raw_id := by
    rw [hout]
    exact canonChars_mk_canonChars raw_id
  refine ⟨?_, by rw [hcanon]; exact h6, by rw [hcanon]; exact h32, ?_⟩
  · intro hempty
    rw [hout] at hempty
    have : (canonChars raw_id).length = 0 := by
      have := congrArg String.data hempty
      simp at this
      simp [this]
    omega
  · rw [hcanon, hout]

/-- Witness for C9 at the concrete input "trk-123456". -/
theorem claim_C9_normalize_idempotent_witness :
    normalize_tracking_id "TRK123456" = .ok "TRK123456" :=
  claim_C9_normalize_idempotent "trk-123456" "TRK123456" rfl

/-! ## TTL cache — src/services/cache.py

`DeliveryCache` keeps three dicts (`_cache`, `_timestamps`, `_ttls`) whose
key sets are always identical; they are modelled as one association list
in dict insertion order (Python dicts iterate in insertion order, and an
overwrite keeps the original position).  `get` takes the current clock
`now`; an entry is expired when `now - stored_at > ttl`.  `set` resolves
its optional ttl with Python `or` semantics (`None` and `0` are both
falsy), evicts the first entry attaining the minimal `stored_at` when the
cache is at capacity (Python `min` returns the first minimal element in
iteration order), and then inserts or overwrites.  `get_stats` is not
modelled (its `hit_rate` is a float); the `hits`/`misses` counters it
reports are fields of the state. -/

structure CacheEntry (α : Type) where
  value : α
  storedAt : Nat
  ttl : Nat
  deriving DecidableEq, Repr

structure DeliveryCache (α : Type) where
  entries : List (String × CacheEntry α)
  max_size : Nat
  default_ttl_seconds : Nat
  hits : Nat
  misses : Nat
  deriving DecidableEq, Repr

def DeliveryCache.get {α : Type} (c : DeliveryCache α) (key : String) (now : Nat) :
    Option α × DeliveryCache α :=
  match c.entries.find? (fun p => p.1 == key) with
  | none => (none, { c with misses := c.misses + 1 })
  | some p =>
    if p.2.ttl < now - p.2.storedAt then
      (none,
        { c with
            entries := c.entries.filter (fun q => q.1 != key),
            misses := c.misses + 1 })
    else
      (some p.2.value, { c with hits := c.hits + 1 })

/-- Python `ttl_seconds or self.default_ttl_seconds`: `None` and `0` are falsy. -/
def resolveTtl (ttl_seconds : Option Nat) (default_ttl : Nat) : Nat :=
  match ttl_seconds with
  | some t => if t = 0 then default_ttl else t
  | none => default_ttl

def oldestKeyGo {α : Type} (best : String) (bestT : Nat) :
    List (String × CacheEntry α) → String
  | [] => best
  | p :: rest =>
    if p.2.storedAt < bestT then oldestKeyGo p.1 p.2.storedAt rest
    else oldestKeyGo best bestT rest

/-- Key selected by `min(self._timestamps.keys(), key=lambda k: self._timestamps[k])`:
the first key in iteration order attaining the minimal timestamp. -/
def oldestKey {α : Type} : List (String × CacheEntry α) → Option String
  | [] => none
  | p :: rest => some (oldestKeyGo p.1 p.2.storedAt rest)

def evictOldest {α : Type} (entries : List (String × CacheEntry α)) :
    List (String × CacheEntry α) :=
  match oldestKey entries with
  | none => entries
  | some k => entries.filter (fun q => q.1 != k)

/-- Dict write `d[key] = v`: overwrite in place if the key is present,
append at the end otherwise. -/
def upsert {α : Type} (entries : List (String × CacheEntry α)) (key : String)
    (e : CacheEntry α) : List (String × CacheEntry α) :=
  match entries with
  | [] => [(key, e)]
  | p :: rest => if p.1 = key then (key, e) :: rest else p :: upsert rest key e

def DeliveryCache.set {α : Type} (c : DeliveryCache α) (key : String) (value : α)
    (ttl_seconds : Option Nat) (now : Nat) : DeliveryCache α :=
  let c1 :=
    if c.max_size ≤ c.entries.length then { c with entries := evictOldest c.entries }
    else c
  { c1 with entries :=
      upsert c1.entries key ⟨value, now, resolveTtl ttl_seconds c.default_ttl_seconds⟩ }

def DeliveryCache.invalidate {α : Type} (c : DeliveryCache α) (key : String) :
    DeliveryCache α :=
  { c with entries := c.entries.filter (fun q => q.1 != key) }

def DeliveryCache.clear {α : Type} (c : DeliveryCache α) : DeliveryCache α :=
  { c with entries := [], hits := 0, misses := 0 }

/-! ### Cache lemmas -/

theorem find?_upsert_self {α : Type} (l : List (String × CacheEntry α)) (key : String)
    (e : CacheEntry α) :
    (upsert l key e).find? (fun p => p.1 == key) = some (key, e) := by
  induction l with
  | nil => simp [upsert]
  | cons p rest ih =>
    unfold upsert
    by_cases hk : p.1 = key
    · rw [if_pos hk]
      simp
    · rw [if_neg hk]
      rw [List.find?_cons_of_neg _ (by simpa using hk)]
      exact ih

theorem find?_filter_ne_none {α : Type} (l : List (String × CacheEntry α)) (key : String) :
    (l.filter (fun q => q.1 != key)).find? (fun p => p.1 == key) = none := by
  rw [List.find?_eq_none]
  intro x hx
  have := (List.mem_filter.mp hx).2
  simpa using this

theorem get_eq_of_fresh {α : Type} (c : DeliveryCache α) (key : String) (now : Nat)
    (pr : String × CacheEntry α)
    (hfind : c.entries.find? (fun p => p.1 == key) = some pr)
    (hfresh : now - pr.2.storedAt ≤ pr.2.ttl) :
    c.get key now = (some pr.2.value, { c with hits := c.hits + 1 }) := by
  unfold DeliveryCache.get
  rw [hfind]
  simp only
  rw [if_neg (by omega)]

theorem get_eq_of_expired {α : Type} (c : DeliveryCache α) (key : String) (now : Nat)
    (pr : String × CacheEntry α)
    (hfind : c.entries.find? (fun p => p.1 == key) = some pr)
    (hexp : pr.2.ttl < now - pr.2.storedAt) :
    c.get key now =
      (none,
        { c with
            entries := c.entries.filter (fun q => q.1 != key),
            misses := c.misses + 1 }) := by
  unfold DeliveryCache.get
  rw [hfind]
  simp only
  rw [if_pos hexp]

theorem get_eq_of_absent {α : Type} (c : DeliveryCache α) (key : String) (now : Nat)
    (hfind : c.entries.find? (fun p => p.1 == key) = none) :
    c.get key now = (none, { c with misses := c.misses + 1 }) := by
  unfold DeliveryCache.get
  rw [hfind]

theorem get_hit_entries_eq {α : Type} (c : DeliveryCache α) (key : String) (now : Nat)
    (v : α) (c' : DeliveryCache α) (h : c.get key now = (some v, c')) :
    c'.entries = c.entries := by
  unfold DeliveryCache.get at h
  cases hfind : c.entries.find? (fun p => p.1 == key) with
  | none =>
    rw [hfind] at h
    simp at h
  | some pr =>
    rw [hfind] at h
    simp only at h
    by_cases hexp : pr.2.ttl < now - pr.2.storedAt
    · rw [if_pos hexp] at h
      simp at h
    · rw [if_neg hexp] at h
      have := congrArg Prod.snd h
      simp at this
      rw [← this]

theorem oldestKeyGo_eq_of_min {α : Type} (k0 : String) (M : Nat)
    (l : List (String × CacheEntry α)) :
    ∀ (best : String) (bestT : Nat),
      (∀ p ∈ l, p.1 ≠ k0 → M < p.2.storedAt) →
      ((best = k0 ∧ ∀ p ∈ l, p.1 ≠ k0 → bestT ≤ p.2.storedAt) ∨
        (∃ e : CacheEntry α, (k0, e) ∈ l ∧ e.storedAt < bestT ∧ e.storedAt ≤ M)) →
      oldestKeyGo best bestT l = k0 := by
  induction l with
  | nil =>
    intro best bestT _ hd
    cases hd with
    | inl h => exact h.1
    | inr h =>
      obtain ⟨e, he, _, _⟩ := h
      exact absurd he (List.not_mem_nil _)
  | cons p rest ih =>
    intro best bestT H hd
    have Hrest : ∀ q ∈ rest, q.1 ≠ k0 → M < q.2.storedAt :=
      fun q hq => H q (List.mem_cons_of_mem _ hq)
    unfold oldestKeyGo
    by_cases hswitch : p.2.storedAt < bestT
    · rw [if_pos hswitch]
      cases hd with
      | inl h =>
        obtain ⟨hbk, hB⟩ := h
        have hpk : p.1 = k0 := by
          by_contra hne
          have := hB p (List.mem_cons_self _ _) hne
          omega
        refine ih p.1 p.2.storedAt Hrest (Or.inl ⟨hpk, fun q hq hqne => ?_⟩)
        have := hB q (List.mem_cons_of_mem _ hq) hqne
        omega
      | inr h =>
        obtain ⟨e, he, heb, heM⟩ := h
        by_cases hpk : p.1 = k0
        · by_cases hlt : e.storedAt < p.2.storedAt
          · have herest : (k0, e) ∈ rest := by
              cases List.mem_cons.mp he with
              | inl heq =>
                exfalso
                have : p.2 = e := congrArg Prod.snd heq.symm
                rw [this] at hlt
                omega
              | inr hmem => exact hmem
            exact ih p.1 p.2.storedAt Hrest (Or.inr ⟨e, herest, hlt, heM⟩)
          · push_neg at hlt
            refine ih p.1 p.2.storedAt Hrest (Or.inl ⟨hpk, fun q hq hqne => ?_⟩)
            have := Hrest q hq hqne
            omega
        · have hpM := H p (List.mem_cons_self _ _) hpk
          have herest : (k0, e) ∈ rest := by
            cases List.mem_cons.mp he with
            | inl heq =>
              exfalso
              exact hpk (congrArg Prod.fst heq.symm)
            | inr hmem => exact hmem
          exact ih p.1 p.2.storedAt Hrest (Or.inr ⟨e, herest, by omega, heM⟩)
    · rw [if_neg hswitch]
      push_neg at hswitch
      cases hd with
      | inl h =>
        exact ih best bestT Hrest
          (Or.inl ⟨h.1, fun q hq hqne => h.2 q (List.mem_cons_of_mem _ hq) hqne⟩)
      | inr h =>
        obtain ⟨e, he, heb, heM⟩ := h
        have herest : (k0, e) ∈ rest := by
          cases List.mem_cons.mp he with
          | inl heq =>
            exfalso
            have : p.2 = e := congrArg Prod.snd heq.symm
            rw [this] at hswitch
            omega
          | inr hmem => exact hmem
        exact ih best bestT Hrest (Or.inr ⟨e, herest, heb, heM⟩)

theorem oldestKey_eq_of_min {α : Type} (entries : List (String × CacheEntry α))
    (k0 : String) (e0 : CacheEntry α) (hmem : (k0, e0) ∈ entries)
    (hmin : ∀ p ∈ entries, p.1 ≠ k0 → e0.storedAt < p.2.storedAt) :
    oldestKey entries = some k0 := by
  cases entries with
  | nil => exact absurd hmem (List.not_mem_nil _)
  | cons p rest =>
    show some (oldestKeyGo p.1 p.2.storedAt rest) = some k0
    congr 1
    have Hrest : ∀ q ∈ rest, q.1 ≠ k0 → e0.storedAt < q.2.storedAt :=
      fun q hq => hmin q (List.mem_cons_of_mem _ hq)
    by_cases hpk : p.1 = k0
    · by_cases hcmp : p.2.storedAt ≤ e0.storedAt
      · refine oldestKeyGo_eq_of_min k0 e0.storedAt rest p.1 p.2.storedAt Hrest
          (Or.inl ⟨hpk, fun q hq hqne => ?_⟩)
        have := Hrest q hq hqne
        omega
      · push_neg at hcmp
        have hrest0 : (k0, e0) ∈ rest := by
          cases List.mem_cons.mp hmem with
          | inl heq =>
            exfalso
            have : p.2 = e0 := congrArg Prod.snd heq.symm
            rw [this] at hcmp
            omega
          | inr hmem0 => exact hmem0
        exact oldestKeyGo_eq_of_min k0 e0.storedAt rest p.1 p.2.storedAt Hrest
          (Or.inr ⟨e0, hrest0, hcmp, le_refl _⟩)
    · have hpM := hmin p (List.mem_cons_self _ _) hpk
      have hrest0 : (k0, e0) ∈ rest := by
        cases List.mem_cons.mp hmem with
        | inl heq =>
          exfalso
          exact hpk (congrArg Prod.fst heq.symm)
        | inr hmem0 => exact hmem0
      exact oldestKeyGo_eq_of_min k0 e0.storedAt rest p.1 p.2.storedAt Hrest
        (Or.inr ⟨e0, hrest0, hpM, le_refl _⟩)

theorem set_entries_eq {α : Type} (c : DeliveryCache α) (key : String) (value : α)
    (ttl_seconds : Option Nat) (now : Nat) :
    (c.set key value ttl_seconds now).entries =
      upsert (if c.max_size ≤ c.entries.length then evictOldest c.entries else c.entries)
        key ⟨value, now, resolveTtl ttl_seconds c.default_ttl_seconds⟩ := by
  unfold DeliveryCache.set
  by_cases h : c.max_size ≤ c.entries.length
  · rw [if_pos h, if_pos h]
  · rw [if_neg h, if_neg h]

/-- C6 (amended): `get` returns the stored value while
`now - stored_at <= ttl`; once `now - stored_at > ttl` it misses, purges
the entry and increments the miss counter.  The ttl stored by `set` is
the per-call override when one is given and nonzero, otherwise the
configured default: Python evaluates `ttl_seconds or default_ttl` and a
`0` override is falsy, so it falls back to the default (this is the one
amendment to the claim, witnessed by `claim_C6_counterexample`). -/
theorem claim_C6_cache_ttl :
    (∀ (α : Type) (c : DeliveryCache α) (key : String) (e : CacheEntry α) (now : Nat),
        c.entries.find? (fun p => p.1 == key) = some (key, e) →
        (now - e.storedAt ≤ e.ttl →
            c.get key now = (some e.value, { c with hits := c.hits + 1 })) ∧
        (e.ttl < now - e.storedAt →
            c.get key now =
              (none,
                { c with
                    entries := c.entries.filter (fun q => q.1 != key),
                    misses := c.misses + 1 }) ∧
            (c.get key now).2.entries.find? (fun p => p.1 == key) = none)) ∧
    (∀ (α : Type) (c : DeliveryCache α) (key : String) (value : α) (t now : Nat),
        t ≠ 0 →
        (c.set key value (some t) now).entries.find? (fun p => p.1 == key) =
          some (key, ⟨value, now, t⟩)) ∧
    (∀ (α : Type) (c : DeliveryCache α) (key : String) (value : α) (now : Nat),
        (c.set key value none now).entries.find? (fun p => p.1 == key) =
          some (key, ⟨value, now, c.default_ttl_seconds⟩)) := by
  refine ⟨?_, ?_, ?_⟩
  · intro α c key e now hfind
    constructor
    · intro hfresh
      exact get_eq_of_fresh c key now (key, e) hfind hfresh
    · intro hexp
      have h := get_eq_of_expired c key now (key, e) hfind hexp
      refine ⟨h, ?_⟩
      rw [h]
      exact find?_filter_ne_none c.entries key
  · intro α c key value t now ht
    have hr : resolveTtl (some t) c.default_ttl_seconds = t := by
      show (if t = 0 then c.default_ttl_seconds else t) = t
      rw [if_neg ht]
    rw [set_entries_eq, hr]
    exact find?_upsert_self _ key _
  · intro α c key value now
    rw [set_entries_eq]
    exact find?_upsert_self _ key _

/-- Witness for C6 on a concrete one-entry cache: a fresh `get` hit, an
expired `get` purge, a nonzero ttl override, and the default ttl path. -/
theorem claim_C6_cache_ttl_witness :
    ((⟨[("TRK123456", ⟨7, 10, 60⟩)], 1000, 60, 0, 0⟩ : DeliveryCache Nat).get
        "TRK123456" 30 =
      (some 7, ⟨[("TRK123456", ⟨7, 10, 60⟩)], 1000, 60, 1, 0⟩)) ∧
    ((⟨[("TRK123456", ⟨7, 10, 60⟩)], 1000, 60, 0, 0⟩ : DeliveryCache Nat).get
        "TRK123456" 100 =
      (none, ⟨[], 1000, 60, 0, 1⟩)) ∧
    ((⟨[], 1000, 60, 0, 0⟩ : DeliveryCache Nat).set "TRK123456" 7 (some 5) 0).entries.find?
        (fun p => p.1 == "TRK123456") = some ("TRK123456", ⟨7, 0, 5⟩) ∧
    ((⟨[], 1000, 60, 0, 0⟩ : DeliveryCache Nat).set "TRK123456" 7 none 0).entries.find?
        (fun p => p.1 == "TRK123456") = some ("TRK123456", ⟨7, 0, 60⟩) :=
  ⟨(claim_C6_cache_ttl.1 Nat ⟨[("TRK123456", ⟨7, 10, 60⟩)], 1000, 60, 0, 0⟩
      "TRK123456" ⟨7, 10, 60⟩ 30 rfl).1 (by decide),
   ((claim_C6_cache_ttl.1 Nat ⟨[("TRK123456", ⟨7, 10, 60⟩)], 1000, 60, 0, 0⟩
      "TRK123456" ⟨7, 10, 60⟩ 100 rfl).2 (by decide)).1,
   claim_C6_cache_ttl.2.1 Nat ⟨[], 1000, 60, 0, 0⟩ "TRK123456" 7 5 0 (by decide),
   claim_C6_cache_ttl.2.2 Nat ⟨[], 1000, 60, 0, 0⟩ "TRK123456" 7 0⟩

/-- Counterexample to C6 as stated: `set` is called with the explicit
per-set override `ttl_seconds = 0`, yet the entry is stored with the
default ttl 60, because Python evaluates `ttl_seconds or
self.default_ttl_seconds` and `0` is falsy.  So "the ttl used is the
per-set override when given" fails for a zero override. -/
theorem claim_C6_counterexample :
    ((⟨[], 1000, 60, 0, 0⟩ : DeliveryCache Nat).set "TRK123456" 7 (some 0) 5).entries =
      [("TRK123456", ⟨7, 5, 60⟩)] ∧ (60 : Nat) ≠ 0 :=
  ⟨rfl, by decide⟩

def fifteenPairs : List (String × Nat) :=
  [("key0", 0), ("key1", 1), ("key2", 2), ("key3", 3), ("key4", 4), ("key5", 5),
   ("key6", 6), ("key7", 7), ("key8", 8), ("key9", 9), ("key10", 10), ("key11", 11),
   ("key12", 12), ("key13", 13), ("key14", 14)]

/-- Mirror of the `test_max_size_eviction` loop: insert each pair at
clock `i` with the default ttl. -/
def insertSeq : DeliveryCache Nat → List (String × Nat) → DeliveryCache Nat
  | c, [] => c
  | c, (k, i) :: rest => insertSeq (c.set k i none i) rest

/-- C7: when `set` runs while the cache already holds `max_size` entries,
exactly the entry with the (unique) smallest `stored_at` is removed and
the new entry is written; a `get` hit leaves the entries — and hence all
eviction priorities — untouched; and inserting the 15 keys
`key0..key14` in order into a capacity-10 cache evicts `key0` and keeps
`key14`. -/
theorem claim_C7_cache_eviction :
    (∀ (α : Type) (c : DeliveryCache α) (key : String) (value : α) (o : Option Nat)
        (now : Nat) (k0 : String) (e0 : CacheEntry α),
        c.entries.length = c.max_size →
        (k0, e0) ∈ c.entries →
        (∀ p ∈ c.entries, p.1 ≠ k0 → e0.storedAt < p.2.storedAt) →
        (c.set key value o now).entries =
          upsert (c.entries.filter (fun q => q.1 != k0)) key
            ⟨value, now, resolveTtl o c.default_ttl_seconds⟩) ∧
    (∀ (α : Type) (c : DeliveryCache α) (key : String) (now : Nat) (v : α)
        (c' : DeliveryCache α),
        c.get key now = (some v, c') → c'.entries = c.entries) ∧
    ((insertSeq ⟨[], 10, 2, 0, 0⟩ fifteenPairs).entries.find?
        (fun p => p.1 == "key0") = none ∧
      (insertSeq ⟨[], 10, 2, 0, 0⟩ fifteenPairs).entries.find?
        (fun p => p.1 == "key14") = some ("key14", ⟨14, 14, 2⟩)) := by
  refine ⟨?_, fun α => @get_hit_entries_eq α, ?_, ?_⟩
  · intro α c key value o now k0 e0 hlen hmem hmin
    have hev : evictOldest c.entries = c.entries.filter (fun q => q.1 != k0) := by
      unfold evictOldest
      rw [oldestKey_eq_of_min c.entries k0 e0 hmem hmin]
    rw [set_entries_eq, if_pos (by omega), hev]
  · rfl
  · rfl

/-- Witness for C7: a full capacity-2 cache evicts its oldest entry on
`set`, and a concrete `get` hit leaves the entry list unchanged. -/
theorem claim_C7_cache_eviction_witness :
    ((⟨[("AAAAAA", ⟨1, 10, 60⟩), ("BBBBBB", ⟨2, 20, 60⟩)], 2, 60, 0, 0⟩ :
        DeliveryCache Nat).set "CCCCCC" 3 none 30).entries =
      upsert ((⟨[("AAAAAA", ⟨1, 10, 60⟩), ("BBBBBB", ⟨2, 20, 60⟩)], 2, 60, 0, 0⟩ :
          DeliveryCache Nat).entries.filter (fun q => q.1 != "AAAAAA")) "CCCCCC"
        ⟨3, 30, 60⟩ ∧
    (⟨[("AAAAAA", ⟨5, 0, 60⟩)], 10, 60, 1, 0⟩ : DeliveryCache Nat).entries =
      (⟨[("AAAAAA", ⟨5, 0, 60⟩)], 10, 60, 0, 0⟩ : DeliveryCache Nat).entries :=
  ⟨claim_C7_cache_eviction.1 Nat ⟨[("AAAAAA", ⟨1, 10, 60⟩), ("BBBBBB", ⟨2, 20, 60⟩)], 2, 60, 0, 0⟩
      "CCCCCC" 3 none 30 "AAAAAA" ⟨1, 10, 60⟩ rfl (by decide) (by decide),
   claim_C7_cache_eviction.2.1 Nat ⟨[("AAAAAA", ⟨5, 0, 60⟩)], 10, 60, 0, 0⟩ "AAAAAA" 10 5
      ⟨[("AAAAAA", ⟨5, 0, 60⟩)], 10, 60, 1, 0⟩ rfl⟩

/-! ## Delivery model — src/models/delivery.py -/

inductive DeliveryStatus
  | PROCESSING
  | IN_TRANSIT
  | DELIVERED
  | DELAYED
  deriving DecidableEq, Repr

/-- The `.value` string of each `DeliveryStatus` member. -/
def DeliveryStatus.value : DeliveryStatus → String
  | .PROCESSING => "processing"
  | .IN_TRANSIT => "in_transit"
  | .DELIVERED => "delivered"
  | .DELAYED => "delayed"

structure Delivery where
  tracking_number : String
  status : DeliveryStatus
  customer_name : String
  customer_phone : String
  estimated_delivery : Option String
  issue_message : Option String
  deriving DecidableEq, Repr

/-! ## Circuit-breaker client — src/services/sanity_client.py

The mutable fields of `SanityClient` are `_circuit_state`,
`_failure_count` and `_last_failure_time`; `_failure_threshold` (5) and
`_reset_timeout` (30.0) are constants.  The `circuit_state` property
mutates lazily on read.  The `@retry(stop=stop_after_attempt(3), ...)`
decorator wraps the *whole* body of `fetch_delivery`, including the
circuit check and the `except` clause that calls `_record_failure`, so
one outer call executes the body up to 3 times; `fetch_attempt` is one
such execution, driven by an `AttemptOutcome` oracle standing for the
HTTP request (`.failure` covers transport errors, HTTP errors and
record-parsing errors — every path that reaches the `except` clause;
`.success found` is a 2xx response whose result set parses to `found`,
with `none` for zero rows).  The third component of each result counts
network requests issued.  Backoff sleep times are not modelled. -/

inductive CircuitState
  | CLOSED
  | OPEN
  | HALF_OPEN
  deriving DecidableEq, Repr

def failure_threshold : Nat := 5

def reset_timeout : Nat := 30

structure SanityClientState where
  circuit : CircuitState
  failure_count : Nat
  last_failure_time : Nat
  deriving DecidableEq, Repr

/-- The lazy `circuit_state` property: returns the state read and the
(possibly mutated) client. -/
def circuit_state (s : SanityClientState) (now : Nat) :
    CircuitState × SanityClientState :=
  if s.circuit = CircuitState.OPEN ∧ reset_timeout < now - s.last_failure_time then
    (CircuitState.HALF_OPEN, { s with circuit := CircuitState.HALF_OPEN })
  else (s.circuit, s)

def record_failure (s : SanityClientState) (now : Nat) : SanityClientState :=
  { circuit :=
      if failure_threshold ≤ s.failure_count + 1 then CircuitState.OPEN else s.circuit,
    failure_count := s.failure_count + 1,
    last_failure_time := now }

def record_success (s : SanityClientState) : SanityClientState :=
  { s with failure_count := 0, circuit := CircuitState.CLOSED }

def reset_circuit (s : SanityClientState) : SanityClientState :=
  { s with failure_count := 0, circuit := CircuitState.CLOSED }

inductive FetchError
  | circuitOpen
  | upstream
  deriving DecidableEq, Repr

inductive AttemptOutcome
  | success : Option Delivery → AttemptOutcome
  | failure
  deriving DecidableEq, Repr

/-- One execution of the decorated `fetch_delivery` body.  Returns the
outcome, the client state afterwards, and the number of network
requests issued (0 when the circuit check short-circuits, 1 otherwise). -/
def fetch_attempt (s : SanityClientState) (now : Nat) (o : AttemptOutcome) :
    Except FetchError (Option Delivery) × SanityClientState × Nat :=
  let (st, s1) := circuit_state s now
  if st = CircuitState.OPEN then (.error .circuitOpen, s1, 0)
  else
    match o with
    | .success found => (.ok found, record_success s1, 1)
    | .failure => (.error .upstream, record_failure s1 now, 1)

/-- The tenacity retry loop: run the body once per list element (attempt
outcome paired with the clock at that attempt); stop on the first
success, reraise the last error when attempts are exhausted. -/
def fetch_retry :
    List (AttemptOutcome × Nat) → SanityClientState →
      Except FetchError (Option Delivery) × SanityClientState × Nat
  | [], s => (.error .upstream, s, 0)
  | (o, t) :: rest, s =>
    match fetch_attempt s t o, rest with
    | (.ok v, s1, n), _ => (.ok v, s1, n)
    | (.error e, s1, n), [] => (.error e, s1, n)
    | (.error _, s1, n), r :: rs =>
      let next := fetch_retry (r :: rs) s1
      (next.1, next.2.1, n + next.2.2)

/-- One outer `fetch_delivery` call: `stop_after_attempt(3)`. -/
def fetch_delivery (o1 o2 o3 : AttemptOutcome) (t1 t2 t3 : Nat)
    (s : SanityClientState) :
    Except FetchError (Option Delivery) × SanityClientState × Nat :=
  fetch_retry [(o1, t1), (o2, t2), (o3, t3)] s

def initialClientState : SanityClientState := ⟨CircuitState.CLOSED, 0, 0⟩

/-! ### Circuit breaker lemmas -/

theorem circuit_state_not_open (s : SanityClientState) (now : Nat)
    (h : s.circuit ≠ CircuitState.OPEN) : circuit_state s now = (s.circuit, s) := by
  unfold circuit_state
  rw [if_neg]
  intro hand
  exact h hand.1

theorem circuit_state_open_recent (s : SanityClientState) (now : Nat)
    (h : s.circuit = CircuitState.OPEN) (ht : now - s.last_failure_time ≤ reset_timeout) :
    circuit_state s now = (CircuitState.OPEN, s) := by
  unfold circuit_state
  rw [if_neg (by omega : ¬ (s.circuit = CircuitState.OPEN ∧
    reset_timeout < now - s.last_failure_time)), h]

theorem circuit_state_open_elapsed (s : SanityClientState) (now : Nat)
    (h : s.circuit = CircuitState.OPEN) (ht : reset_timeout < now - s.last_failure_time) :
    circuit_state s now =
      (CircuitState.HALF_OPEN, { s with circuit := CircuitState.HALF_OPEN }) := by
  unfold circuit_state
  rw [if_pos ⟨h, ht⟩]

theorem record_failure_below (s : SanityClientState) (now : Nat)
    (h : s.failure_count + 1 < failure_threshold) :
    record_failure s now = ⟨s.circuit, s.failure_count + 1, now⟩ := by
  unfold record_failure
  rw [if_neg (by omega)]

theorem fetch_attempt_not_open_failure (s : SanityClientState) (now : Nat)
    (h : s.circuit ≠ CircuitState.OPEN) :
    fetch_attempt s now .failure = (.error .upstream, record_failure s now, 1) := by
  unfold fetch_attempt
  rw [circuit_state_not_open s now h]
  simp only
  rw [if_neg h]

theorem fetch_attempt_not_open_success (s : SanityClientState) (now : Nat)
    (found : Option Delivery) (h : s.circuit ≠ CircuitState.OPEN) :
    fetch_attempt s now (.success found) = (.ok found, record_success s, 1) := by
  unfold fetch_attempt
  rw [circuit_state_not_open s now h]
  simp only
  rw [if_neg h]

theorem fetch_attempt_open_recent (s : SanityClientState) (now : Nat) (o : AttemptOutcome)
    (h : s.circuit = CircuitState.OPEN) (ht : now - s.last_failure_time ≤ reset_timeout) :
    fetch_attempt s now o = (.error .circuitOpen, s, 0) := by
  unfold fetch_attempt
  rw [circuit_state_open_recent s now h ht]
  simp only
  rw [if_pos trivial]

theorem fetch_retry_cons_error (o : AttemptOutcome) (t : Nat) (r : AttemptOutcome × Nat)
    (rs : List (AttemptOutcome × Nat)) (s s1 : SanityClientState) (e : FetchError) (n : Nat)
    (h : fetch_attempt s t o = (.error e, s1, n)) :
    fetch_retry ((o, t) :: r :: rs) s =
      ((fetch_retry (r :: rs) s1).1, (fetch_retry (r :: rs) s1).2.1,
        n + (fetch_retry (r :: rs) s1).2.2) := by
  conv_lhs => unfold fetch_retry
  rw [h]

theorem fetch_retry_last_error (o : AttemptOutcome) (t : Nat) (s s1 : SanityClientState)
    (e : FetchError) (n : Nat) (h : fetch_attempt s t o = (.error e, s1, n)) :
    fetch_retry [(o, t)] s = (.error e, s1, n) := by
  unfold fetch_retry
  rw [h]

theorem fetch_retry_cons_ok (o : AttemptOutcome) (t : Nat)
    (rest : List (AttemptOutcome × Nat)) (s s1 : SanityClientState)
    (v : Option Delivery) (n : Nat) (h : fetch_attempt s t o = (.ok v, s1, n)) :
    fetch_retry ((o, t) :: rest) s = (.ok v, s1, n) := by
  unfold fetch_retry
  rw [h]

/-- Counterexample to C1 as stated: starting from a fresh client
(CLOSED, failure count 0), an outer `fetch_delivery` call whose 3
attempts all fail does raise, but leaves the consecutive-failure counter
at 3, not 0 + 1: `_record_failure` sits inside the `except` clause of
the retried body, so it runs once per failed attempt, not once per outer
call. -/
theorem claim_C1_counterexample :
    (fetch_delivery .failure .failure .failure 1 2 3 ⟨CircuitState.CLOSED, 0, 0⟩).1 =
        Except.error FetchError.upstream ∧
    (fetch_delivery .failure .failure .failure 1 2 3
        ⟨CircuitState.CLOSED, 0, 0⟩).2.1.failure_count = 3 ∧
    (3 : Nat) ≠ 0 + 1 :=
  ⟨rfl, rfl, by decide⟩

/-- C1 (amended): an outer fetch call in which all 3 attempts fail
raises, and the failure counter is incremented once per failed attempt —
by 3, provided the circuit stays closed throughout (failure count + 2
below the threshold) — with all 3 attempts reaching the network. -/
theorem claim_C1_retry_failure_accounting :
    ∀ (s : SanityClientState) (t1 t2 t3 : Nat),
      s.circuit = CircuitState.CLOSED →
      s.failure_count + 2 < failure_threshold →
      (fetch_delivery .failure .failure .failure t1 t2 t3 s).1 =
          Except.error FetchError.upstream ∧
      (fetch_delivery .failure .failure .failure t1 t2 t3 s).2.1.failure_count =
          s.failure_count + 3 ∧
      (fetch_delivery .failure .failure .failure t1 t2 t3 s).2.2 = 3 := by
  intro s t1 t2 t3 hc hcnt
  have hne : s.circuit ≠ CircuitState.OPEN := by
    rw [hc]
    intro h
    cases h
  have h1 : fetch_attempt s t1 .failure =
      (.error .upstream, ⟨CircuitState.CLOSED, s.failure_count + 1, t1⟩, 1) := by
    rw [fetch_attempt_not_open_failure s t1 hne,
      record_failure_below s t1 (by omega), hc]
  have h2 : fetch_attempt ⟨CircuitState.CLOSED, s.failure_count + 1, t1⟩ t2 .failure =
      (.error .upstream, ⟨CircuitState.CLOSED, s.failure_count + 1 + 1, t2⟩, 1) := by
    rw [fetch_attempt_not_open_failure _ t2 (by intro h; cases h),
      record_failure_below _ t2 (by show s.failure_count + 1 + 1 < failure_threshold; omega)]
  have h3 : fetch_attempt ⟨CircuitState.CLOSED, s.failure_count + 1 + 1, t2⟩ t3 .failure =
      (.error .upstream,
        ⟨if failure_threshold ≤ s.failure_count + 1 + 1 + 1 then CircuitState.OPEN
          else CircuitState.CLOSED, s.failure_count + 1 + 1 + 1, t3⟩, 1) := by
    rw [fetch_attempt_not_open_failure _ t3 (by intro h; cases h)]
    rfl
  have R3 : fetch_retry [(.failure, t3)]
      ⟨CircuitState.CLOSED, s.failure_count + 1 + 1, t2⟩ =
      (.error .upstream,
        ⟨if failure_threshold ≤ s.failure_count + 1 + 1 + 1 then CircuitState.OPEN
          else CircuitState.CLOSED, s.failure_count + 1 + 1 + 1, t3⟩, 1) :=
    fetch_retry_last_error _ t3 _ _ _ _ h3
  have R2 : fetch_retry [(.failure, t2), (.failure, t3)]
      ⟨CircuitState.CLOSED, s.failure_count + 1, t1⟩ =
      (.error .upstream,
        ⟨if failure_threshold ≤ s.failure_count + 1 + 1 + 1 then CircuitState.OPEN
          else CircuitState.CLOSED, s.failure_count + 1 + 1 + 1, t3⟩, 1 + 1) := by
    rw [fetch_retry_cons_error _ t2 _ _ _ _ _ _ h2, R3]
  have H : fetch_delivery .failure .failure .failure t1 t2 t3 s =
      (.error .upstream,
        ⟨if failure_threshold ≤ s.failure_count + 1 + 1 + 1 then CircuitState.OPEN
          else CircuitState.CLOSED, s.failure_count + 1 + 1 + 1, t3⟩, 1 + (1 + 1)) := by
    unfold fetch_delivery
    rw [fetch_retry_cons_error _ t1 _ _ _ _ _ _ h1, R2]
  refine ⟨?_, ?_, ?_⟩
  · rw [H]
  · rw [H]
  · rw [H]

/-- Witness for C1 (amended) from the initial client state. -/
theorem claim_C1_retry_failure_accounting_witness :
    (fetch_delivery .failure .failure .failure 1 2 3 initialClientState).1 =
        Except.error FetchError.upstream ∧
    (fetch_delivery .failure .failure .failure 1 2 3
        initialClientState).2.1.failure_count = initialClientState.failure_count + 3 ∧
    (fetch_delivery .failure .failure .failure 1 2 3 initialClientState).2.2 = 3 :=
  claim_C1_retry_failure_accounting initialClientState 1 2 3 rfl (by decide)

/-- C3: the circuit breaker state machine.  (1) a recorded failure from
CLOSED opens the circuit exactly when the counter reaches the threshold
of 5; (2) while OPEN and within 30 seconds of the last recorded failure,
an outer fetch fails immediately with the circuit-open error, leaves the
state untouched and issues zero network requests; (3) once more than 30
seconds have elapsed, the lazily evaluated `circuit_state` read yields
HALF_OPEN; (4) the next fetch is then allowed through — on success it
performs one network request, returns the record and resets the client
to CLOSED with counter 0; (5) a recorded success resets the counter to 0
and the state to CLOSED; (6) a failure recorded while HALF_OPEN (where
the counter is necessarily at or above the threshold) returns the state
to OPEN and resets the failure timestamp. -/
theorem claim_C3_circuit_state_machine :
    (∀ (s : SanityClientState) (now : Nat), s.circuit = CircuitState.CLOSED →
        ((record_failure s now).circuit = CircuitState.OPEN ↔
          failure_threshold ≤ s.failure_count + 1)) ∧
    (∀ (s : SanityClientState) (o1 o2 o3 : AttemptOutcome) (t1 t2 t3 : Nat),
        s.circuit = CircuitState.OPEN →
        t1 - s.last_failure_time ≤ reset_timeout →
        t2 - s.last_failure_time ≤ reset_timeout →
        t3 - s.last_failure_time ≤ reset_timeout →
        fetch_delivery o1 o2 o3 t1 t2 t3 s = (.error .circuitOpen, s, 0)) ∧
    (∀ (s : SanityClientState) (now : Nat), s.circuit = CircuitState.OPEN →
        reset_timeout < now - s.last_failure_time →
        (circuit_state s now).1 = CircuitState.HALF_OPEN) ∧
    (∀ (s : SanityClientState) (found : Option Delivery) (o2 o3 : AttemptOutcome)
        (t1 t2 t3 : Nat),
        s.circuit = CircuitState.OPEN →
        reset_timeout < t1 - s.last_failure_time →
        fetch_delivery (.success found) o2 o3 t1 t2 t3 s =
          (.ok found, ⟨CircuitState.CLOSED, 0, s.last_failure_time⟩, 1)) ∧
    (∀ s : SanityClientState,
        (record_success s).failure_count = 0 ∧
        (record_success s).circuit = CircuitState.CLOSED) ∧
    (∀ (s : SanityClientState) (now : Nat), s.circuit = CircuitState.HALF_OPEN →
        failure_threshold ≤ s.failure_count →
        (record_failure s now).circuit = CircuitState.OPEN ∧
        (record_failure s now).last_failure_time = now) := by
  refine ⟨?_, ?_, ?_, ?_, ?_, ?_⟩
  · intro s now hc
    show (if failure_threshold ≤ s.failure_count + 1 then CircuitState.OPEN
      else s.circuit) = CircuitState.OPEN ↔ failure_threshold ≤ s.failure_count + 1
    by_cases h5 : failure_threshold ≤ s.failure_count + 1
    · rw [if_pos h5]
      simp [h5]
    · rw [if_neg h5, hc]
      constructor
      · intro h
        cases h
      · intro h
        exact absurd h h5
  · intro s o1 o2 o3 t1 t2 t3 hc ht1 ht2 ht3
    have h1 := fetch_attempt_open_recent s t1 o1 hc ht1
    have h2 := fetch_attempt_open_recent s t2 o2 hc ht2
    have h3 := fetch_attempt_open_recent s t3 o3 hc ht3
    have R3 : fetch_retry [(o3, t3)] s = (.error .circuitOpen, s, 0) :=
      fetch_retry_last_error _ t3 _ _ _ _ h3
    have R2 : fetch_retry [(o2, t2), (o3, t3)] s = (.error .circuitOpen, s, 0 + 0) := by
      rw [fetch_retry_cons_error _ t2 _ _ _ _ _ _ h2, R3]
    have H : fetch_delivery o1 o2 o3 t1 t2 t3 s =
        (.error .circuitOpen, s, 0 + (0 + 0)) := by
      unfold fetch_delivery
      rw [fetch_retry_cons_error _ t1 _ _ _ _ _ _ h1, R2]
    rw [H]
  · intro s now hc ht
    rw [circuit_state_open_elapsed s now hc ht]
  · intro s found o2 o3 t1 t2 t3 hc ht
    have h1 : fetch_attempt s t1 (.success found) =
        (.ok found, ⟨CircuitState.CLOSED, 0, s.last_failure_time⟩, 1) := by
      unfold fetch_attempt
      rw [circuit_state_open_elapsed s t1 hc ht]
      simp only
      rw [if_neg (by intro h; cases h)]
      rfl
    unfold fetch_delivery
    rw [fetch_retry_cons_ok _ t1 _ _ _ _ _ h1]
  · intro s
    exact ⟨rfl, rfl⟩
  · intro s now hc hth
    refine ⟨?_, rfl⟩
    show (if failure_threshold ≤ s.failure_count + 1 then CircuitState.OPEN
      else s.circuit) = CircuitState.OPEN
    rw [if_pos (by omega)]

/-- Witness for C3: a concrete run touching every conjunct — the 5th
failure opens the circuit; an OPEN client rejects a fetch within the
30-second window without network traffic; at 31 seconds the read is
HALF_OPEN; the next fetch goes through and closes the circuit; a
recorded success resets; and a HALF_OPEN failure reopens with a fresh
timestamp. -/
theorem claim_C3_circuit_state_machine_witness :
    (record_failure ⟨CircuitState.CLOSED, 4, 0⟩ 10).circuit = CircuitState.OPEN ∧
    fetch_delivery .failure .failure .failure 110 115 120
        ⟨CircuitState.OPEN, 5, 100⟩ =
      (.error .circuitOpen, ⟨CircuitState.OPEN, 5, 100⟩, 0) ∧
    (circuit_state ⟨CircuitState.OPEN, 5, 100⟩ 131).1 = CircuitState.HALF_OPEN ∧
    fetch_delivery (.success none) .failure .failure 131 132 133
        ⟨CircuitState.OPEN, 5, 100⟩ =
      (.ok none, ⟨CircuitState.CLOSED, 0, 100⟩, 1) ∧
    (record_success ⟨CircuitState.OPEN, 5, 7⟩).failure_count = 0 ∧
    (record_success ⟨CircuitState.OPEN, 5, 7⟩).circuit = CircuitState.CLOSED ∧
    (record_failure ⟨CircuitState.HALF_OPEN, 5, 100⟩ 131).circuit =
      CircuitState.OPEN ∧
    (record_failure ⟨CircuitState.HALF_OPEN, 5, 100⟩ 131).last_failure_time = 131 :=
  ⟨(claim_C3_circuit_state_machine.1 ⟨CircuitState.CLOSED, 4, 0⟩ 10 rfl).mpr (by decide),
   claim_C3_circuit_state_machine.2.1 ⟨CircuitState.OPEN, 5, 100⟩ .failure .failure
     .failure 110 115 120 rfl (by decide) (by decide) (by decide),
   claim_C3_circuit_state_machine.2.2.1 ⟨CircuitState.OPEN, 5, 100⟩ 131 rfl (by decide),
   claim_C3_circuit_state_machine.2.2.2.1 ⟨CircuitState.OPEN, 5, 100⟩ none .failure
     .failure 131 132 133 rfl (by decide),
   (claim_C3_circuit_state_machine.2.2.2.2.1 ⟨CircuitState.OPEN, 5, 7⟩).1,
   (claim_C3_circuit_state_machine.2.2.2.2.1 ⟨CircuitState.OPEN, 5, 7⟩).2,
   (claim_C3_circuit_state_machine.2.2.2.2.2 ⟨CircuitState.HALF_OPEN, 5, 100⟩ 131 rfl
     (by decide)).1,
   (claim_C3_circuit_state_machine.2.2.2.2.2 ⟨CircuitState.HALF_OPEN, 5, 100⟩ 131 rfl
     (by decide)).2⟩

/-! ## Response builder — src/services/response_builder.py

Each builder returns a flat response dict; `ToolOutput` has one field
per key that any of the webhook-path builders emits, with `none` for
keys a given builder omits.  `DeliveryDetails` is the
`delivery_details` payload of `build_success_response` (note: it has no
customer phone — the builder never copies `customer_phone` into a
response).  The two issue-conversation builders (`build_issue_response`,
`build_no_issue_response`) are never called from the webhook path and
are not modelled. -/

structure DeliveryDetails where
  tracking_number : String
  status : String
  customer_name : String
  estimated_delivery : Option String
  issue_message : Option String
  deriving DecidableEq, Repr

structure ToolOutput where
  status : String
  message : String
  delivery_details : Option DeliveryDetails
  source : Option String
  cache_age_seconds : Option Nat
  deriving DecidableEq, Repr

def successDetails (delivery : Delivery) : DeliveryDetails :=
  { tracking_number := delivery.tracking_number,
    status := delivery.status.value,
    customer_name := delivery.customer_name,
    estimated_delivery := delivery.estimated_delivery,
    issue_message := delivery.issue_message }

def build_success_response (delivery : Delivery) : ToolOutput :=
  { status := "success",
    message := "Your package " ++ delivery.tracking_number ++ " is " ++
      (delivery.status.value.replace "_" " ") ++ ".",
    delivery_details := some (successDetails delivery),
    source := none,
    cache_age_seconds := none }

def build_not_found_response (tracking_id : String) : ToolOutput :=
  { status := "not_found",
    message := "I couldn\x27t find a delivery with tracking number " ++ tracking_id ++
      ". Please verify your tracking number and try again.",
    delivery_details := none,
    source := none,
    cache_age_seconds := none }

def build_error_response (message : String) : ToolOutput :=
  { status := "error",
    message := message,
    delivery_details := none,
    source := none,
    cache_age_seconds := none }

def build_cached_fallback (cached_data : DeliveryDetails) (age_seconds : Nat) :
    ToolOutput :=
  { status := "success",
    message := "I have cached information from " ++ toString age_seconds ++
      " seconds ago. For the latest status, please try again later.",
    delivery_details := some cached_data,
    source := some "cache",
    cache_age_seconds := some age_seconds }

def build_unavailable_fallback : ToolOutput :=
  { status := "unavailable",
    message := "I\x27m having trouble accessing the latest delivery information. Please try again in a moment.",
    delivery_details := none,
    source := some "fallback",
    cache_age_seconds := none }

/-! ## Dispatcher — src/server.py, `process_webhook`

A `ToolCall` carries the fields the loop reads: `call.get("type")`,
`call.get("id")` (checked with Python truthiness: `None` and `""` both
skip, modelled as `call.id.getD ""` being empty), `call.get("function",
{}).get("name")`, and the
tracking id extracted as `arguments.get("tracking_id", "")` (after the
JSON-string arguments case, whose parse failure yields empty arguments
and hence the default `""`).  The upstream client is abstracted as an
oracle from the normalized id to the outcome of
`client.fetch_delivery`: `.ok` (a record or `None`) or `.err` (any
exception — circuit open, retries exhausted, transport error).  `times`
gives each loop iteration its cache-read and cache-write clocks.  The
third component returned by `handle_call` counts `fetch_delivery`
invocations (upstream calls) made for that tool call. -/

structure ToolCall where
  type : Option String
  id : Option String
  name : Option String
  tracking_id : String
  deriving DecidableEq, Repr

inductive FetchOutcome
  | ok : Option Delivery → FetchOutcome
  | err
  deriving DecidableEq, Repr

structure ToolCallResult where
  toolCallId : String
  output : ToolOutput
  deriving DecidableEq, Repr

structure AssistantMessage where
  role : String
  content : String
  deriving DecidableEq, Repr

structure WebhookResult where
  toolCallResults : List ToolCallResult
  messages : List AssistantMessage
  deriving DecidableEq, Repr

def handle_call (fetch : String → FetchOutcome) (tGet tSet : Nat)
    (cache : DeliveryCache DeliveryDetails) (call : ToolCall) :
    Option ToolCallResult × DeliveryCache DeliveryDetails × Nat :=
  if call.type ≠ some "function" then (none, cache, 0)
  else if call.id.getD "" = "" then (none, cache, 0)
  else if call.name ≠ some "get_delivery_status" then (none, cache, 0)
  else
    match normalize_tracking_id call.tracking_id with
    | .error m => (some ⟨call.id.getD "", build_error_response m⟩, cache, 0)
    | .ok normalized_id =>
      match cache.get normalized_id tGet with
      | (some cached, cache1) =>
        (some ⟨call.id.getD "", build_cached_fallback cached 0⟩, cache1, 0)
      | (none, cache1) =>
        match fetch normalized_id with
        | .err => (some ⟨call.id.getD "", build_unavailable_fallback⟩, cache1, 1)
        | .ok none =>
          (some ⟨call.id.getD "", build_not_found_response normalized_id⟩, cache1, 1)
        | .ok (some delivery) =>
          (some ⟨call.id.getD "", build_success_response delivery⟩,
            cache1.set normalized_id (successDetails delivery) none tSet, 1)

def process_calls (fetch : String → FetchOutcome) (times : Nat → Nat × Nat) :
    Nat → List ToolCall → DeliveryCache DeliveryDetails →
      List ToolCallResult × DeliveryCache DeliveryDetails
  | _, [], cache => ([], cache)
  | i, call :: rest, cache =>
    let r := handle_call fetch (times i).1 (times i).2 cache call
    let next := process_calls fetch times (i + 1) rest r.2.1
    (match r.1 with
      | none => next.1
      | some out => out :: next.1, next.2)

def process_webhook (fetch : String → FetchOutcome) (times : Nat → Nat × Nat)
    (tool_calls : List ToolCall) (cache : DeliveryCache DeliveryDetails) :
    WebhookResult :=
  let res := process_calls fetch times 0 tool_calls cache
  { toolCallResults := res.1,
    messages := (res.1.filter (fun t => t.output.message ≠ "")).map
      (fun t => ⟨"assistant", t.output.message⟩) }

/-- A tool-call entry that the loop handles rather than skips: declared
function kind, a truthy call id, and the one implemented function name. -/
def eligible_call (call : ToolCall) : Bool :=
  call.type == some "function" &&
    (match call.id with
      | some tool_call_id => tool_call_id != ""
      | none => false) &&
    call.name == some "get_delivery_status"

/-! ### Dispatcher lemmas -/

theorem handle_call_eligible (fetch : String → FetchOutcome) (tGet tSet : Nat)
    (cache : DeliveryCache DeliveryDetails) (call : ToolCall) (tool_call_id : String)
    (htype : call.type = some "function") (hid : call.id = some tool_call_id)
    (hne : tool_call_id ≠ "") (hname : call.name = some "get_delivery_status") :
    handle_call fetch tGet tSet cache call =
      match normalize_tracking_id call.tracking_id with
      | .error m => (some ⟨tool_call_id, build_error_response m⟩, cache, 0)
      | .ok normalized_id =>
        match cache.get normalized_id tGet with
        | (some cached, cache1) =>
          (some ⟨tool_call_id, build_cached_fallback cached 0⟩, cache1, 0)
        | (none, cache1) =>
          match fetch normalized_id with
          | .err => (some ⟨tool_call_id, build_unavailable_fallback⟩, cache1, 1)
          | .ok none =>
            (some ⟨tool_call_id, build_not_found_response normalized_id⟩, cache1, 1)
          | .ok (some delivery) =>
            (some ⟨tool_call_id, build_success_response delivery⟩,
              cache1.set normalized_id (successDetails delivery) none tSet, 1) := by
  unfold handle_call
  rw [htype, hid, if_neg (fun h => h rfl), if_neg (by simpa using hne),
    hname, if_neg (fun h => h rfl)]
  rfl

theorem handle_call_skip (fetch : String → FetchOutcome) (tGet tSet : Nat)
    (cache : DeliveryCache DeliveryDetails) (call : ToolCall)
    (h : eligible_call call = false) :
    handle_call fetch tGet tSet cache call = (none, cache, 0) := by
  unfold handle_call
  unfold eligible_call at h
  by_cases htype : call.type = some "function"
  · rw [htype, if_neg (fun hx => hx rfl)]
    by_cases hid : call.id.getD "" = ""
    · rw [if_pos hid]
    · rw [if_neg hid]
      by_cases hname : call.name = some "get_delivery_status"
      · exfalso
        rw [htype, hname] at h
        cases hcid : call.id with
        | none =>
          rw [hcid] at hid
          exact hid rfl
        | some tool_call_id =>
          rw [hcid] at h hid
          simp at h
          exact hid h
      · rw [if_pos hname]
  · rw [if_pos (by simpa using htype)]

theorem handle_call_invalid_id (fetch : String → FetchOutcome) (tGet tSet : Nat)
    (cache : DeliveryCache DeliveryDetails) (call : ToolCall) (tool_call_id m : String)
    (htype : call.type = some "function") (hid : call.id = some tool_call_id)
    (hne : tool_call_id ≠ "") (hname : call.name = some "get_delivery_status")
    (hnorm : normalize_tracking_id call.tracking_id = .error m) :
    handle_call fetch tGet tSet cache call =
      (some ⟨tool_call_id, build_error_response m⟩, cache, 0) := by
  rw [handle_call_eligible fetch tGet tSet cache call tool_call_id htype hid hne hname]
  simp only [hnorm]

theorem handle_call_cache_hit (fetch : String → FetchOutcome) (tGet tSet : Nat)
    (cache cache1 : DeliveryCache DeliveryDetails) (call : ToolCall)
    (tool_call_id normalized_id : String) (cached : DeliveryDetails)
    (htype : call.type = some "function") (hid : call.id = some tool_call_id)
    (hne : tool_call_id ≠ "") (hname : call.name = some "get_delivery_status")
    (hnorm : normalize_tracking_id call.tracking_id = .ok normalized_id)
    (hget : cache.get normalized_id tGet = (some cached, cache1)) :
    handle_call fetch tGet tSet cache call =
      (some ⟨tool_call_id, build_cached_fallback cached 0⟩, cache1, 0) := by
  rw [handle_call_eligible fetch tGet tSet cache call tool_call_id htype hid hne hname]
  simp only [hnorm, hget]

theorem handle_call_unavailable (fetch : String → FetchOutcome) (tGet tSet : Nat)
    (cache cache1 : DeliveryCache DeliveryDetails) (call : ToolCall)
    (tool_call_id normalized_id : String)
    (htype : call.type = some "function") (hid : call.id = some tool_call_id)
    (hne : tool_call_id ≠ "") (hname : call.name = some "get_delivery_status")
    (hnorm : normalize_tracking_id call.tracking_id = .ok normalized_id)
    (hget : cache.get normalized_id tGet = (none, cache1))
    (hfetch : fetch normalized_id = .err) :
    handle_call fetch tGet tSet cache call =
      (some ⟨tool_call_id, build_unavailable_fallback⟩, cache1, 1) := by
  rw [handle_call_eligible fetch tGet tSet cache call tool_call_id htype hid hne hname]
  simp only [hnorm, hget, hfetch]

theorem handle_call_not_found (fetch : String → FetchOutcome) (tGet tSet : Nat)
    (cache cache1 : DeliveryCache DeliveryDetails) (call : ToolCall)
    (tool_call_id normalized_id : String)
    (htype : call.type = some "function") (hid : call.id = some tool_call_id)
    (hne : tool_call_id ≠ "") (hname : call.name = some "get_delivery_status")
    (hnorm : normalize_tracking_id call.tracking_id = .ok normalized_id)
    (hget : cache.get normalized_id tGet = (none, cache1))
    (hfetch : fetch normalized_id = .ok none) :
    handle_call fetch tGet tSet cache call =
      (some ⟨tool_call_id, build_not_found_response normalized_id⟩, cache1, 1) := by
  rw [handle_call_eligible fetch tGet tSet cache call tool_call_id htype hid hne hname]
  simp only [hnorm, hget, hfetch]

theorem handle_call_fresh_success (fetch : String → FetchOutcome) (tGet tSet : Nat)
    (cache cache1 : DeliveryCache DeliveryDetails) (call : ToolCall)
    (tool_call_id normalized_id : String) (delivery : Delivery)
    (htype : call.type = some "function") (hid : call.id = some tool_call_id)
    (hne : tool_call_id ≠ "") (hname : call.name = some "get_delivery_status")
    (hnorm : normalize_tracking_id call.tracking_id = .ok normalized_id)
    (hget : cache.get normalized_id tGet = (none, cache1))
    (hfetch : fetch normalized_id = .ok (some delivery)) :
    handle_call fetch tGet tSet cache call =
      (some ⟨tool_call_id, build_success_response delivery⟩,
        cache1.set normalized_id (successDetails delivery) none tSet, 1) := by
  rw [handle_call_eligible fetch tGet tSet cache call tool_call_id htype hid hne hname]
  simp only [hnorm, hget, hfetch]

theorem handle_call_fst_isSome (fetch : String → FetchOutcome) (tGet tSet : Nat)
    (cache : DeliveryCache DeliveryDetails) (call : ToolCall) :
    (handle_call fetch tGet tSet cache call).1.isSome = eligible_call call := by
  by_cases he : eligible_call call = true
  · rw [he]
    unfold eligible_call at he
    simp only [Bool.and_eq_true, beq_iff_eq] at he
    obtain ⟨⟨htype, hid0⟩, hname⟩ := he
    cases hcid : call.id with
    | none =>
      rw [hcid] at hid0
      simp at hid0
    | some tool_call_id =>
      rw [hcid] at hid0
      have hne : tool_call_id ≠ "" := by simpa using hid0
      rw [handle_call_eligible fetch tGet tSet cache call tool_call_id htype hcid
        hne hname]
      cases hn : normalize_tracking_id call.tracking_id with
      | error m => simp
      | ok normalized_id =>
        cases hg : cache.get normalized_id tGet with
        | mk o cache1 =>
          cases o with
          | some cached => simp [hg]
          | none =>
            cases hf : fetch normalized_id with
            | err => simp [hg, hf]
            | ok found =>
              cases found with
              | none => simp [hg, hf]
              | some delivery => simp [hg, hf]
  · have hfe : eligible_call call = false := by
      cases hb : eligible_call call
      · rfl
      · exact absurd hb he
    rw [hfe, handle_call_skip fetch tGet tSet cache call hfe]
    rfl

theorem process_calls_fst_length (fetch : String → FetchOutcome)
    (times : Nat → Nat × Nat) :
    ∀ (calls : List ToolCall) (i : Nat) (cache : DeliveryCache DeliveryDetails),
      (process_calls fetch times i calls cache).1.length =
        (calls.filter eligible_call).length := by
  intro calls
  induction calls with
  | nil =>
    intro i cache
    rfl
  | cons call rest ih =>
    intro i cache
    unfold process_calls
    simp only [List.filter_cons]
    cases he : eligible_call call with
    | false =>
      rw [if_neg (by simp [he])]
      have hnone : (handle_call fetch (times i).1 (times i).2 cache call).1 = none := by
        rw [handle_call_skip fetch (times i).1 (times i).2 cache call he]
      simp only [hnone]
      exact ih (i + 1) _
    | true =>
      rw [if_pos (by simp [he])]
      have hsome := handle_call_fst_isSome fetch (times i).1 (times i).2 cache call
      rw [he] at hsome
      obtain ⟨out, hout⟩ := Option.isSome_iff_exists.mp hsome
      simp only [hout, List.length_cons]
      rw [ih (i + 1)]

/-! ### Provenance of emitted delivery details (C2) -/

/-- A record that the upstream fetch oracle actually returned. -/
def FetchedRecord (fetch : String → FetchOutcome) (delivery : Delivery) : Prop :=
  ∃ normalized_id, fetch normalized_id = FetchOutcome.ok (some delivery)

/-- A details payload from a verified source: either it was already
stored in the initial cache, or it is the built payload of a record the
upstream fetch returned. -/
def VerifiedValue (c0 : DeliveryCache DeliveryDetails) (fetch : String → FetchOutcome)
    (v : DeliveryDetails) : Prop :=
  (∃ p ∈ c0.entries, p.2.value = v) ∨
  (∃ delivery, FetchedRecord fetch delivery ∧ v = successDetails delivery)

theorem get_entries_cases {α : Type} (c : DeliveryCache α) (key : String) (now : Nat) :
    (c.get key now).2.entries = c.entries ∨
    (c.get key now).2.entries = c.entries.filter (fun q => q.1 != key) := by
  cases hf : c.entries.find? (fun q => q.1 == key) with
  | none =>
    left
    rw [get_eq_of_absent c key now hf]
  | some pr =>
    by_cases hexp : pr.2.ttl < now - pr.2.storedAt
    · right
      rw [get_eq_of_expired c key now pr hf hexp]
    · left
      rw [get_eq_of_fresh c key now pr hf (by omega)]

theorem get_entries_subset {α : Type} (c : DeliveryCache α) (key : String) (now : Nat) :
    ∀ p ∈ (c.get key now).2.entries, p ∈ c.entries := by
  intro p hp
  cases get_entries_cases c key now with
  | inl h =>
    rw [h] at hp
    exact hp
  | inr h =>
    rw [h] at hp
    exact List.mem_of_mem_filter hp

theorem get_some_value_mem {α : Type} (c : DeliveryCache α) (key : String) (now : Nat)
    (v : α) (c' : DeliveryCache α) (h : c.get key now = (some v, c')) :
    ∃ p ∈ c.entries, p.2.value = v := by
  unfold DeliveryCache.get at h
  cases hf : c.entries.find? (fun q => q.1 == key) with
  | none =>
    rw [hf] at h
    simp at h
  | some pr =>
    rw [hf] at h
    simp only at h
    by_cases hexp : pr.2.ttl < now - pr.2.storedAt
    · rw [if_pos hexp] at h
      simp at h
    · rw [if_neg hexp] at h
      have hv : pr.2.value = v := congrArg Prod.fst h |> Option.some.inj
      exact ⟨pr, List.mem_of_find?_eq_some hf, hv⟩

theorem mem_upsert {α : Type} (l : List (String × CacheEntry α)) (key : String)
    (e : CacheEntry α) : ∀ p ∈ upsert l key e, p = (key, e) ∨ p ∈ l := by
  induction l with
  | nil =>
    intro p hp
    unfold upsert at hp
    exact Or.inl (List.mem_singleton.mp hp)
  | cons q rest ih =>
    intro p hp
    unfold upsert at hp
    by_cases hk : q.1 = key
    · rw [if_pos hk] at hp
      cases List.mem_cons.mp hp with
      | inl h => exact Or.inl h
      | inr h => exact Or.inr (List.mem_cons_of_mem _ h)
    · rw [if_neg hk] at hp
      cases List.mem_cons.mp hp with
      | inl h => exact Or.inr (h ▸ List.mem_cons_self _ _)
      | inr h =>
        cases ih p h with
        | inl h2 => exact Or.inl h2
        | inr h2 => exact Or.inr (List.mem_cons_of_mem _ h2)

theorem mem_evictOldest {α : Type} (l : List (String × CacheEntry α)) :
    ∀ p ∈ evictOldest l, p ∈ l := by
  intro p hp
  unfold evictOldest at hp
  cases hk : oldestKey l with
  | none =>
    rw [hk] at hp
    exact hp
  | some k =>
    rw [hk] at hp
    exact List.mem_of_mem_filter hp

theorem mem_set {α : Type} (c : DeliveryCache α) (key : String) (value : α)
    (ttl_seconds : Option Nat) (now : Nat) :
    ∀ p ∈ (c.set key value ttl_seconds now).entries,
      p = (key, ⟨value, now, resolveTtl ttl_seconds c.default_ttl_seconds⟩) ∨
        p ∈ c.entries := by
  intro p hp
  rw [set_entries_eq] at hp
  by_cases hcap : c.max_size ≤ c.entries.length
  · rw [if_pos hcap] at hp
    cases mem_upsert _ key _ p hp with
    | inl h => exact Or.inl h
    | inr h => exact Or.inr (mem_evictOldest _ p h)
  · rw [if_neg hcap] at hp
    exact mem_upsert _ key _ p hp

theorem handle_call_verified (fetch : String → FetchOutcome) (tGet tSet : Nat)
    (c0 cache : DeliveryCache DeliveryDetails) (call : ToolCall)
    (hcache : ∀ p ∈ cache.entries, VerifiedValue c0 fetch p.2.value) :
    (∀ r, (handle_call fetch tGet tSet cache call).1 = some r →
      ((r.output.status = "not_found" ∨ r.output.status = "error" ∨
          r.output.status = "unavailable") → r.output.delivery_details = none) ∧
      (∀ dd, r.output.delivery_details = some dd →
        (∃ delivery, FetchedRecord fetch delivery ∧
            r.output = build_success_response delivery) ∨
        (∃ v, VerifiedValue c0 fetch v ∧ r.output = build_cached_fallback v 0))) ∧
    (∀ p ∈ (handle_call fetch tGet tSet cache call).2.1.entries,
      VerifiedValue c0 fetch p.2.value) := by
  by_cases he : eligible_call call = true
  · unfold eligible_call at he
    simp only [Bool.and_eq_true, beq_iff_eq] at he
    obtain ⟨⟨htype, hid0⟩, hname⟩ := he
    cases hcid : call.id with
    | none =>
      rw [hcid] at hid0
      simp at hid0
    | some tool_call_id =>
      rw [hcid] at hid0
      have hne : tool_call_id ≠ "" := by simpa using hid0
      cases hn : normalize_tracking_id call.tracking_id with
      | error m =>
        rw [handle_call_invalid_id fetch tGet tSet cache call tool_call_id m htype
          hcid hne hname hn]
        refine ⟨?_, hcache⟩
        intro r hr
        cases Option.some.inj hr
        exact ⟨fun _ => rfl, fun dd hdd => by cases hdd⟩
      | ok normalized_id =>
        have hc1 : ∀ p ∈ (cache.get normalized_id tGet).2.entries,
            VerifiedValue c0 fetch p.2.value :=
          fun p hp => hcache p (get_entries_subset cache normalized_id tGet p hp)
        cases hg : cache.get normalized_id tGet with
        | mk o cache1 =>
          rw [hg] at hc1
          cases o with
          | some cached =>
            rw [handle_call_cache_hit fetch tGet tSet cache cache1 call tool_call_id
              normalized_id cached htype hcid hne hname hn hg]
            refine ⟨?_, hc1⟩
            intro r hr
            cases Option.some.inj hr
            constructor
            · intro h
              rcases h with h | h | h <;> simp [build_cached_fallback] at h
            · intro dd hdd
              right
              refine ⟨cached, ?_, by rw [Option.some.inj hdd]⟩
              obtain ⟨p, hp, hv⟩ := get_some_value_mem cache normalized_id tGet
                cached cache1 hg
              exact hv ▸ hcache p hp
          | none =>
            cases hf : fetch normalized_id with
            | err =>
              rw [handle_call_unavailable fetch tGet tSet cache cache1 call
                tool_call_id normalized_id htype hcid hne hname hn hg hf]
              refine ⟨?_, hc1⟩
              intro r hr
              cases Option.some.inj hr
              exact ⟨fun _ => rfl, fun dd hdd => by cases hdd⟩
            | ok found =>
              cases found with
              | none =>
                rw [handle_call_not_found fetch tGet tSet cache cache1 call
                  tool_call_id normalized_id htype hcid hne hname hn hg hf]
                refine ⟨?_, hc1⟩
                intro r hr
                cases Option.some.inj hr
                exact ⟨fun _ => rfl, fun dd hdd => by cases hdd⟩
              | some delivery =>
                rw [handle_call_fresh_success fetch tGet tSet cache cache1 call
                  tool_call_id normalized_id delivery htype hcid hne hname hn hg hf]
                constructor
                · intro r hr
                  cases Option.some.inj hr
                  constructor
                  · intro h
                    rcases h with h | h | h <;> simp [build_success_response] at h
                  · intro dd hdd
                    left
                    exact ⟨delivery, ⟨normalized_id, hf⟩, rfl⟩
                · intro p hp
                  cases mem_set cache1 normalized_id (successDetails delivery)
                    none tSet p hp with
                  | inl hnew =>
                    rw [hnew]
                    exact Or.inr ⟨delivery, ⟨normalized_id, hf⟩, rfl⟩
                  | inr hold => exact hc1 p hold
  · have hfe : eligible_call call = false := by
      cases hb : eligible_call call
      · rfl
      · exact absurd hb he
    rw [handle_call_skip fetch tGet tSet cache call hfe]
    refine ⟨?_, hcache⟩
    intro r hr
    cases hr

theorem process_calls_verified (fetch : String → FetchOutcome) (times : Nat → Nat × Nat)
    (c0 : DeliveryCache DeliveryDetails) :
    ∀ (calls : List ToolCall) (i : Nat) (cache : DeliveryCache DeliveryDetails),
      (∀ p ∈ cache.entries, VerifiedValue c0 fetch p.2.value) →
      ∀ r ∈ (process_calls fetch times i calls cache).1,
        ((r.output.status = "not_found" ∨ r.output.status = "error" ∨
            r.output.status = "unavailable") → r.output.delivery_details = none) ∧
        (∀ dd, r.output.delivery_details = some dd →
          (∃ delivery, FetchedRecord fetch delivery ∧
              r.output = build_success_response delivery) ∨
          (∃ v, VerifiedValue c0 fetch v ∧ r.output = build_cached_fallback v 0)) := by
  intro calls
  induction calls with
  | nil =>
    intro i cache _ r hr
    exact absurd hr (List.not_mem_nil r)
  | cons call rest ih =>
    intro i cache hcache r hr
    have H := handle_call_verified fetch (times i).1 (times i).2 c0 cache call hcache
    unfold process_calls at hr
    simp only at hr
    cases h1 : (handle_call fetch (times i).1 (times i).2 cache call).1 with
    | none =>
      rw [h1] at hr
      exact ih (i + 1) _ H.2 r hr
    | some out =>
      rw [h1] at hr
      cases List.mem_cons.mp hr with
      | inl heq => exact heq ▸ H.1 out h1
      | inr hmem => exact ih (i + 1) _ H.2 r hmem

/-- C2: every output the Dispatcher emits with a non-null
`delivery_details` was built by the response builder from a verified
source — `build_success_response` on a record the upstream fetch
returned, or `build_cached_fallback` on a value traceable to the initial
cache contents or to a record stored during the batch — and every
`not_found`, `error` or `unavailable` output carries
`delivery_details = none`.  No builder in the webhook path synthesizes a
status, name or phone: the only non-null details payloads are the two
builder images above (and `customer_phone` is never copied into any
output at all). -/
theorem claim_C2_verified_outputs (fetch : String → FetchOutcome)
    (times : Nat → Nat × Nat) (tool_calls : List ToolCall)
    (c0 : DeliveryCache DeliveryDetails) :
    ∀ r ∈ (process_webhook fetch times tool_calls c0).toolCallResults,
      ((r.output.status = "not_found" ∨ r.output.status = "error" ∨
          r.output.status = "unavailable") → r.output.delivery_details = none) ∧
      (∀ dd, r.output.delivery_details = some dd →
        (∃ delivery, FetchedRecord fetch delivery ∧
            r.output = build_success_response delivery) ∨
        (∃ v, VerifiedValue c0 fetch v ∧ r.output = build_cached_fallback v 0)) := by
  intro r hr
  exact process_calls_verified fetch times c0 tool_calls 0 c0
    (fun p hp => Or.inl ⟨p, hp, rfl⟩) r hr

def sampleDelivery : Delivery :=
  ⟨"TRK123456", .DELIVERED, "Jane Doe", "5551234", none, none⟩

def sampleCall : ToolCall :=
  ⟨some "function", some "call-1", some "get_delivery_status", "trk-123456"⟩

def emptyCache : DeliveryCache DeliveryDetails := ⟨[], 1000, 60, 0, 0⟩

def constTimes : Nat → Nat × Nat := fun _ => (0, 0)

def sampleFetch : String → FetchOutcome := fun _ => .ok (some sampleDelivery)

/-- Witness for C2 on a one-call batch whose fetch returns a record. -/
theorem claim_C2_verified_outputs_witness :
    (((⟨"call-1", build_success_response sampleDelivery⟩ : ToolCallResult).output.status =
          "not_found" ∨
        (⟨"call-1", build_success_response sampleDelivery⟩ : ToolCallResult).output.status =
          "error" ∨
        (⟨"call-1", build_success_response sampleDelivery⟩ : ToolCallResult).output.status =
          "unavailable") →
      (⟨"call-1", build_success_response sampleDelivery⟩ :
          ToolCallResult).output.delivery_details = none) ∧
    (∀ dd,
      (⟨"call-1", build_success_response sampleDelivery⟩ :
          ToolCallResult).output.delivery_details = some dd →
      (∃ delivery, FetchedRecord sampleFetch delivery ∧
          (⟨"call-1", build_success_response sampleDelivery⟩ : ToolCallResult).output =
            build_success_response delivery) ∨
      (∃ v, VerifiedValue emptyCache sampleFetch v ∧
          (⟨"call-1", build_success_response sampleDelivery⟩ : ToolCallResult).output =
            build_cached_fallback v 0)) :=
  claim_C2_verified_outputs sampleFetch constTimes [sampleCall] emptyCache
    ⟨"call-1", build_success_response sampleDelivery⟩ (by exact List.Mem.head _)

theorem get_none_no_entry {α : Type} (c : DeliveryCache α) (key : String) (now : Nat)
    (c' : DeliveryCache α) (h : c.get key now = (none, c')) :
    c'.entries.find? (fun p => p.1 == key) = none := by
  cases hf : c.entries.find? (fun p => p.1 == key) with
  | none =>
    rw [get_eq_of_absent c key now hf] at h
    have hc : c' = { c with misses := c.misses + 1 } :=
      (((Prod.mk.injEq _ _ _ _).mp h).2).symm
    rw [hc]
    exact hf
  | some pr =>
    by_cases hexp : pr.2.ttl < now - pr.2.storedAt
    · rw [get_eq_of_expired c key now pr hf hexp] at h
      have hc : c' =
          { c with
              entries := c.entries.filter (fun q => q.1 != key),
              misses := c.misses + 1 } :=
        (((Prod.mk.injEq _ _ _ _).mp h).2).symm
      rw [hc]
      exact find?_filter_ne_none c.entries key
    · rw [get_eq_of_fresh c key now pr hf (by omega)] at h
      simp at h

/-- C4: per-call failures are isolated into typed outputs and the batch
result always has the `{toolCallResults, messages}` shape.  (1) an
invalid tracking id yields an `error` output for that call, leaves the
cache untouched, and makes zero upstream calls; (2) a client exception
on a cache miss yields an `unavailable` output for that call; (3) for
every batch — including one where every call failed — the Dispatcher
returns one output per handled call (a failure never removes a call's
output or aborts the rest) and the assistant messages derived from the
non-empty output messages, in order. -/
theorem claim_C4_failure_isolation :
    (∀ (fetch : String → FetchOutcome) (tGet tSet : Nat)
        (cache : DeliveryCache DeliveryDetails) (call : ToolCall)
        (tool_call_id m : String),
        call.type = some "function" → call.id = some tool_call_id →
        tool_call_id ≠ "" → call.name = some "get_delivery_status" →
        normalize_tracking_id call.tracking_id = .error m →
        handle_call fetch tGet tSet cache call =
          (some ⟨tool_call_id, build_error_response m⟩, cache, 0)) ∧
    (∀ (fetch : String → FetchOutcome) (tGet tSet : Nat)
        (cache cache1 : DeliveryCache DeliveryDetails) (call : ToolCall)
        (tool_call_id normalized_id : String),
        call.type = some "function" → call.id = some tool_call_id →
        tool_call_id ≠ "" → call.name = some "get_delivery_status" →
        normalize_tracking_id call.tracking_id = .ok normalized_id →
        cache.get normalized_id tGet = (none, cache1) →
        fetch normalized_id = .err →
        handle_call fetch tGet tSet cache call =
          (some ⟨tool_call_id, build_unavailable_fallback⟩, cache1, 1)) ∧
    (∀ (fetch : String → FetchOutcome) (times : Nat → Nat × Nat)
        (tool_calls : List ToolCall) (cache : DeliveryCache DeliveryDetails),
        (process_webhook fetch times tool_calls cache).toolCallResults.length =
          (tool_calls.filter eligible_call).length ∧
        (process_webhook fetch times tool_calls cache).messages =
          ((process_webhook fetch times tool_calls cache).toolCallResults.filter
            (fun t => t.output.message ≠ "")).map
              (fun t => ⟨"assistant", t.output.message⟩)) := by
  refine ⟨?_, ?_, ?_⟩
  · intro fetch tGet tSet cache call tool_call_id m htype hid hne hname hnorm
    exact handle_call_invalid_id fetch tGet tSet cache call tool_call_id m htype hid
      hne hname hnorm
  · intro fetch tGet tSet cache cache1 call tool_call_id normalized_id htype hid hne
      hname hnorm hget hfetch
    exact handle_call_unavailable fetch tGet tSet cache cache1 call tool_call_id
      normalized_id htype hid hne hname hnorm hget hfetch
  · intro fetch times tool_calls cache
    exact ⟨process_calls_fst_length fetch times tool_calls 0 cache, rfl⟩

/-- Witness for C4: a too-short tracking id produces an `error` output
with no upstream call and an unchanged cache; a client exception on a
miss produces an `unavailable` output; a one-call batch yields exactly
one output and derives its assistant message. -/
theorem claim_C4_failure_isolation_witness :
    handle_call sampleFetch 0 0 emptyCache
        ⟨some "function", some "call-2", some "get_delivery_status", "ab-1"⟩ =
      (some ⟨"call-2", build_error_response (tooShortMsg "AB1")⟩, emptyCache, 0) ∧
    handle_call (fun _ => FetchOutcome.err) 0 0 emptyCache sampleCall =
      (some ⟨"call-1", build_unavailable_fallback⟩, ⟨[], 1000, 60, 0, 1⟩, 1) ∧
    ((process_webhook sampleFetch constTimes [sampleCall] emptyCache).toolCallResults.length =
        ([sampleCall].filter eligible_call).length ∧
      (process_webhook sampleFetch constTimes [sampleCall] emptyCache).messages =
        ((process_webhook sampleFetch constTimes [sampleCall]
            emptyCache).toolCallResults.filter
          (fun t => t.output.message ≠ "")).map
            (fun t => ⟨"assistant", t.output.message⟩)) :=
  ⟨claim_C4_failure_isolation.1 sampleFetch 0 0 emptyCache
      ⟨some "function", some "call-2", some "get_delivery_status", "ab-1"⟩
      "call-2" (tooShortMsg "AB1") rfl rfl (by decide) rfl rfl,
   claim_C4_failure_isolation.2.1 (fun _ => FetchOutcome.err) 0 0 emptyCache
      ⟨[], 1000, 60, 0, 1⟩ sampleCall "call-1" "TRK123456" rfl rfl (by decide) rfl
      rfl rfl rfl,
   claim_C4_failure_isolation.2.2 sampleFetch constTimes [sampleCall] emptyCache⟩

/-- Counterexample to C5 as stated: a call whose fetch reports
`not_found` does change the cache state — the lookup increments the miss
counter (from 0 to 1 here) even though nothing is written. -/
theorem claim_C5_counterexample :
    (handle_call (fun _ => FetchOutcome.ok none) 0 0 emptyCache sampleCall).1 =
      some ⟨"call-1", build_not_found_response "TRK123456"⟩ ∧
    (handle_call (fun _ => FetchOutcome.ok none) 0 0 emptyCache
        sampleCall).2.1.misses = 1 ∧
    emptyCache.misses = 0 :=
  ⟨rfl, rfl, rfl⟩

/-- C5 (amended): on a cache hit the Dispatcher emits a cached output and
makes no upstream call; on a miss with a verified record it stores the
built `delivery_details` payload (not the raw record) under the
normalized id with the default ttl; on `not_found` nothing is written —
the resulting cache is exactly the post-lookup state (the lookup itself
may bump the miss counter and lazily purge an expired entry), and it
holds no entry under the queried id. -/
theorem claim_C5_cache_discipline :
    (∀ (fetch : String → FetchOutcome) (tGet tSet : Nat)
        (cache cache1 : DeliveryCache DeliveryDetails) (call : ToolCall)
        (tool_call_id normalized_id : String) (cached : DeliveryDetails),
        call.type = some "function" → call.id = some tool_call_id →
        tool_call_id ≠ "" → call.name = some "get_delivery_status" →
        normalize_tracking_id call.tracking_id = .ok normalized_id →
        cache.get normalized_id tGet = (some cached, cache1) →
        handle_call fetch tGet tSet cache call =
          (some ⟨tool_call_id, build_cached_fallback cached 0⟩, cache1, 0)) ∧
    (∀ (fetch : String → FetchOutcome) (tGet tSet : Nat)
        (cache cache1 : DeliveryCache DeliveryDetails) (call : ToolCall)
        (tool_call_id normalized_id : String) (delivery : Delivery),
        call.type = some "function" → call.id = some tool_call_id →
        tool_call_id ≠ "" → call.name = some "get_delivery_status" →
        normalize_tracking_id call.tracking_id = .ok normalized_id →
        cache.get normalized_id tGet = (none, cache1) →
        fetch normalized_id = .ok (some delivery) →
        handle_call fetch tGet tSet cache call =
          (some ⟨tool_call_id, build_success_response delivery⟩,
            cache1.set normalized_id (successDetails delivery) none tSet, 1) ∧
        (build_success_response delivery).delivery_details =
          some (successDetails delivery) ∧
        (cache1.set normalized_id (successDetails delivery) none tSet).entries.find?
            (fun p => p.1 == normalized_id) =
          some (normalized_id,
            ⟨successDetails delivery, tSet, cache1.default_ttl_seconds⟩)) ∧
    (∀ (fetch : String → FetchOutcome) (tGet tSet : Nat)
        (cache cache1 : DeliveryCache DeliveryDetails) (call : ToolCall)
        (tool_call_id normalized_id : String),
        call.type = some "function" → call.id = some tool_call_id →
        tool_call_id ≠ "" → call.name = some "get_delivery_status" →
        normalize_tracking_id call.tracking_id = .ok normalized_id →
        cache.get normalized_id tGet = (none, cache1) →
        fetch normalized_id = .ok none →
        handle_call fetch tGet tSet cache call =
          (some ⟨tool_call_id, build_not_found_response normalized_id⟩, cache1, 1) ∧
        cache1.entries.find? (fun p => p.1 == normalized_id) = none) := by
  refine ⟨?_, ?_, ?_⟩
  · intro fetch tGet tSet cache cache1 call tool_call_id normalized_id cached htype
      hid hne hname hnorm hget
    exact handle_call_cache_hit fetch tGet tSet cache cache1 call tool_call_id
      normalized_id cached htype hid hne hname hnorm hget
  · intro fetch tGet tSet cache cache1 call tool_call_id normalized_id delivery htype
      hid hne hname hnorm hget hfetch
    refine ⟨handle_call_fresh_success fetch tGet tSet cache cache1 call tool_call_id
      normalized_id delivery htype hid hne hname hnorm hget hfetch, rfl, ?_⟩
    rw [set_entries_eq]
    exact find?_upsert_self _ normalized_id _
  · intro fetch tGet tSet cache cache1 call tool_call_id normalized_id htype hid hne
      hname hnorm hget hfetch
    exact ⟨handle_call_not_found fetch tGet tSet cache cache1 call tool_call_id
      normalized_id htype hid hne hname hnorm hget hfetch,
      get_none_no_entry cache normalized_id tGet cache1 hget⟩

def cacheWithSample : DeliveryCache DeliveryDetails :=
  ⟨[("TRK123456", ⟨successDetails sampleDelivery, 100, 60⟩)], 1000, 60, 0, 0⟩

/-- Witness for C5 (amended): a concrete hit, a concrete store of the
built payload, and a concrete `not_found` with nothing written. -/
theorem claim_C5_cache_discipline_witness :
    handle_call sampleFetch 120 120 cacheWithSample sampleCall =
      (some ⟨"call-1", build_cached_fallback (successDetails sampleDelivery) 0⟩,
        { cacheWithSample with hits := 1 }, 0) ∧
    (handle_call sampleFetch 0 0 emptyCache sampleCall =
      (some ⟨"call-1", build_success_response sampleDelivery⟩,
        DeliveryCache.set ⟨[], 1000, 60, 0, 1⟩ "TRK123456"
          (successDetails sampleDelivery) none 0, 1) ∧
      (build_success_response sampleDelivery).delivery_details =
        some (successDetails sampleDelivery) ∧
      (DeliveryCache.set ⟨[], 1000, 60, 0, 1⟩ "TRK123456"
          (successDetails sampleDelivery) none 0).entries.find?
        (fun p => p.1 == "TRK123456") =
          some ("TRK123456", ⟨successDetails sampleDelivery, 0, 60⟩)) ∧
    (handle_call (fun _ => FetchOutcome.ok none) 0 0 emptyCache sampleCall =
      (some ⟨"call-1", build_not_found_response "TRK123456"⟩, ⟨[], 1000, 60, 0, 1⟩, 1) ∧
      (⟨[], 1000, 60, 0, 1⟩ : DeliveryCache DeliveryDetails).entries.find?
        (fun p => p.1 == "TRK123456") = none) :=
  ⟨claim_C5_cache_discipline.1 sampleFetch 120 120 cacheWithSample
      { cacheWithSample with hits := 1 } sampleCall "call-1" "TRK123456"
      (successDetails sampleDelivery) rfl rfl (by decide) rfl rfl rfl,
   claim_C5_cache_discipline.2.1 sampleFetch 0 0 emptyCache ⟨[], 1000, 60, 0, 1⟩
      sampleCall "call-1" "TRK123456" sampleDelivery rfl rfl (by decide) rfl rfl
      rfl rfl,
   claim_C5_cache_discipline.2.2 (fun _ => FetchOutcome.ok none) 0 0 emptyCache
      ⟨[], 1000, 60, 0, 1⟩ sampleCall "call-1" "TRK123456" rfl rfl (by decide) rfl
      rfl rfl rfl⟩

/-- C10: on every cache hit the Dispatcher hard-codes `age_seconds = 0`:
the emitted output is `build_cached_fallback cached 0`, with
`cache_age_seconds = 0` and a message speaking of "0 seconds ago",
whatever the lookup clock `tGet` and the entry's true `stored_at` were —
the real age is never computed. -/
theorem claim_C10_cached_age_always_zero :
    ∀ (fetch : String → FetchOutcome) (tGet tSet : Nat)
      (cache cache1 : DeliveryCache DeliveryDetails) (call : ToolCall)
      (tool_call_id normalized_id : String) (cached : DeliveryDetails),
      call.type = some "function" → call.id = some tool_call_id →
      tool_call_id ≠ "" → call.name = some "get_delivery_status" →
      normalize_tracking_id call.tracking_id = .ok normalized_id →
      cache.get normalized_id tGet = (some cached, cache1) →
      (handle_call fetch tGet tSet cache call).1 =
        some ⟨tool_call_id, build_cached_fallback cached 0⟩ ∧
      (build_cached_fallback cached 0).cache_age_seconds = some 0 ∧
      (build_cached_fallback cached 0).message =
        "I have cached information from 0 seconds ago. For the latest status, please try again later." := by
  intro fetch tGet tSet cache cache1 call tool_call_id normalized_id cached htype hid
    hne hname hnorm hget
  refine ⟨?_, rfl, rfl⟩
  rw [handle_call_cache_hit fetch tGet tSet cache cache1 call tool_call_id
    normalized_id cached htype hid hne hname hnorm hget]

/-- Witness for C10: an entry stored at clock 100 and read at clock 120
(a real age of 20 seconds) is still reported as 0 seconds old. -/
theorem claim_C10_cached_age_always_zero_witness :
    (handle_call sampleFetch 120 120 cacheWithSample sampleCall).1 =
      some ⟨"call-1", build_cached_fallback (successDetails sampleDelivery) 0⟩ ∧
    (build_cached_fallback (successDetails sampleDelivery) 0).cache_age_seconds =
      some 0 ∧
    (build_cached_fallback (successDetails sampleDelivery) 0).message =
      "I have cached information from 0 seconds ago. For the latest status, please try again later." :=
  claim_C10_cached_age_always_zero sampleFetch 120 120 cacheWithSample
    { cacheWithSample with hits := 1 } sampleCall "call-1" "TRK123456"
    (successDetails sampleDelivery) rfl rfl (by decide) rfl rfl rfl

end CaptainCargo
